import Mathlib

/-!
Shallow embedding of `main.py` of JoseBurg/finanzas-personales.

The program has two parts relevant to the claims:
* `FinanceCalculator` — pure static functions `calculate_available`,
  `format_currency`, `get_status_indicator`;
* `GoogleSheetsManager` — record-level operations on a worksheet
  (`read_budget_data`, `update_expense`, `add_transaction`, `get_categories`).

Numeric amounts are modelled as rationals (`ℚ`): every concrete value in the
claims is exactly representable as a binary double, so the double arithmetic
performed by the Python code coincides with rational arithmetic on them.
A worksheet is modelled as a header row plus a list of data rows of string
cells; operations that raise in Python (indexing an empty DataFrame) return
`none`.
-/

namespace Finanzas

/-- The whitespace characters Python's `float()` strips from both ends of its
argument (ASCII range: space, tab, newline, carriage return, vertical tab,
form feed). -/
def isPySpace (c : Char) : Bool :=
  c == ' ' || c == '\t' || c == '\n' || c == '\r' ||
  c == Char.ofNat 11 || c == Char.ofNat 12

/-- Embeds `str(x).replace('$', '').replace(',', '')` from
`calculate_available` (main.py lines 181-182): Python `str.replace` with an
empty replacement deletes every occurrence of the pattern, and since both
patterns are single characters the composition deletes every `'$'` and every
`','` character, wherever it occurs. -/
def strip (s : String) : String :=
  String.mk (s.data.filter (fun c => c ≠ '$' ∧ c ≠ ','))

/-- Numeric value of an ASCII digit character. -/
def digVal (c : Char) : ℕ := c.toNat - 48

/-- Splits a character list into its maximal leading run of ASCII digits and
the remainder. -/
def takeDigits (l : List Char) : List Char × List Char :=
  (l.takeWhile Char.isDigit, l.dropWhile Char.isDigit)

/-- Value of a digit string read most-significant first. -/
def digitsToNat (l : List Char) : ℕ :=
  l.foldl (fun a c => 10 * a + digVal c) 0

/-- Embeds Python `float(s)` on the string form used by this program:
optional surrounding whitespace, an optional sign, a decimal mantissa
(digits, with an optional fractional part; at least one digit overall) and an
optional exponent.  Returns the exact rational value, `none` on any string
`float` would reject.  `inf`/`nan` and underscore digit separators are
outside the rational model and also map to `none`; no input of this
program's claims uses them. -/
def parse_float (s : String) : Option ℚ :=
  let cs := ((s.data.dropWhile isPySpace).reverse.dropWhile isPySpace).reverse
  let (sgn, cs1) : ℤ × List Char :=
    match cs with
    | '+' :: t => (1, t)
    | '-' :: t => (-1, t)
    | t => (1, t)
  let (ip, cs2) := takeDigits cs1
  let (fp, cs3) :=
    match cs2 with
    | '.' :: t => takeDigits t
    | t => (([] : List Char), t)
  if ip = [] ∧ fp = [] then none
  else
    let den : ℕ := 10 ^ fp.length
    let num : ℤ := sgn * Int.ofNat (digitsToNat ip * den + digitsToNat fp)
    match cs3 with
    | [] => some (mkRat num den)
    | e :: t =>
      if e = 'e' ∨ e = 'E' then
        let (epos, t1) : Bool × List Char :=
          match t with
          | '+' :: t2 => (true, t2)
          | '-' :: t2 => (false, t2)
          | t2 => (true, t2)
        let (ed, t2) := takeDigits t1
        if ed = [] ∨ t2 ≠ [] then none
        else if epos then some (mkRat (num * Int.ofNat (10 ^ digitsToNat ed)) den)
        else some (mkRat num (den * 10 ^ digitsToNat ed))
      else none

/-- Embeds `FinanceCalculator.calculate_available` (main.py lines 168-185):
strip `'$'` and `','` from both arguments, parse both as floats and return
the difference; any `ValueError` from parsing is caught and `0.0` returned.
(`TypeError` cannot arise once the argument is a string, and the model's
inputs are the strings the Python code passes through `str`.) -/
def calculate_available (budget spent : String) : ℚ :=
  match parse_float (strip budget), parse_float (strip spent) with
  | some b, some s => b - s
  | _, _ => 0

/-- The ASCII character of a decimal digit value. -/
def digitChar (k : ℕ) : Char := Char.ofNat (48 + k)

/-- Repeated division by ten, structurally recursive on a fuel argument so
that the kernel can evaluate it; `fuel ≥ n + 1` always suffices. -/
def natDigitsGo (n : ℕ) : ℕ → List Char
  | 0 => []
  | fuel + 1 =>
    if n < 10 then [digitChar n]
    else digitChar (n % 10) :: natDigitsGo (n / 10) fuel

/-- Decimal digit characters of a natural number, least significant first
(the digit string Python's fixed-point formatting renders, reversed). -/
def natDigits (n : ℕ) : List Char := natDigitsGo n (n + 1)

/-- Inserts a comma after every three characters of a least-significant-first
digit list: the thousands grouping of Python's `,` format flag, built from
the right. -/
def groupDigitsAux : List Char → List Char
  | [] => []
  | [a] => [a]
  | [a, b] => [a, b]
  | [a, b, c] => [a, b, c]
  | a :: b :: c :: d :: rest => a :: b :: c :: ',' :: groupDigitsAux (d :: rest)

/-- The integer part of a formatted amount: decimal digits with a comma
between each group of three, most significant first. -/
def groupedDigits (n : ℕ) : List Char := (groupDigitsAux (natDigits n)).reverse

/-- Rounds `100 * q` to an integer, ties to even: the rounding Python's
`.2f` format applies at two decimals.  Python rounds the binary double
nearest to the written value; on inputs exactly representable as doubles
(all inputs of the claims) the two agree.  Computed on the numerator and
denominator so that the kernel can evaluate it. -/
def roundHalfEvenCents (q : ℚ) : ℤ :=
  let n := q.num * 100
  let d : ℤ := q.den
  let f := Int.fdiv n d
  let r2 := 2 * (n - f * d)
  if r2 < d then f
  else if d < r2 then f + 1
  else if f % 2 = 0 then f else f + 1

/-- Embeds `FinanceCalculator.format_currency` (main.py lines 187-198), an
f-string interpolating `amount` with format spec `,.2f` after a dollar
sign: the value rendered with a leading minus sign when negative, thousands
separated by commas, and exactly two decimal digits. -/
def format_currency (q : ℚ) : String :=
  let n := (roundHalfEvenCents q).natAbs
  let sign := if q < 0 then "-" else ""
  let ip := n / 100
  let fr := n % 100
  "$" ++ (sign ++ String.mk (groupedDigits ip)) ++ "." ++
    String.mk [digitChar (fr / 10), digitChar (fr % 10)]

/-- Modelled from the spec: `main.py` under `src/` is truncated at line 212,
inside `get_status_indicator` — only the first band, `available > 1000 →
"🟢 Excel…"`, survives.  Per spec §4.2 the function maps the available
balance into ordered threshold bands; exact thresholds and band count are
presentation policy.  We complete the visible first band with descending
thresholds at 500 and 0. -/
def get_status_indicator (available : ℚ) : String :=
  if available > 1000 then "🟢 Excelente"
  else if available > 500 then "🟡 Bueno"
  else if available > 0 then "🟠 Ajustado"
  else "🔴 Excedido"

/-- Favorability rank of a status string: the index of its band, counting
from the least favorable. -/
def favorability (s : String) : ℕ :=
  if s = "🟢 Excelente" then 3
  else if s = "🟡 Bueno" then 2
  else if s = "🟠 Ajustado" then 1
  else 0

/-- A worksheet as `get_all_records` sees it: the header row and the data
rows below it, each a list of string cells. -/
structure Worksheet where
  header : List String
  rows : List (List String)
deriving DecidableEq

/-- The value of a data row in the first column — the column pandas selects
through `df.columns[0]` and `df.iloc[:, 0]`. -/
def first_cell (r : List String) : String := r.headD ""

/-- Embeds `worksheet.update_cell(row, col, value)`: `row` and `col` are
1-based over the whole sheet, row 1 being the header, so sheet row `r ≥ 2`
is data row `r - 2`. -/
def update_cell (ws : Worksheet) (row col : ℕ) (value : String) : Worksheet :=
  if row = 1 then { ws with header := ws.header.set (col - 1) value }
  else
    { ws with
      rows := ws.rows.set (row - 2) ((ws.rows.getD (row - 2) []).set (col - 1) value) }

/-- Index of the first data row whose first-column value equals `category`:
the `df[mask].index[0]` of a fresh `RangeIndex` DataFrame, where
`mask = df[df.columns[0]] == category`. -/
def find_first_match (rows : List (List String)) (category : String) : Option ℕ :=
  match rows with
  | [] => none
  | r :: rs =>
    if first_cell r = category then some 0
    else (find_first_match rs category).map (· + 1)

/-- Embeds `GoogleSheetsManager.read_budget_data` (main.py lines 87-96): the
DataFrame of all records, i.e. the data rows. -/
def read_budget_data (ws : Worksheet) : List (List String) := ws.rows

/-- Embeds `GoogleSheetsManager.update_expense` (main.py lines 109-131).
On a sheet with no data rows `pd.DataFrame([])` has no columns and
`df.columns[0]` raises `IndexError`, modelled as `none`.  Otherwise the
first row whose first-column value equals `category` gets its third cell
overwritten with `amount` (sheet row `index + 2`, column 3) and `True` is
returned; with no match `False` is returned and nothing is written. -/
def update_expense (ws : Worksheet) (category amount : String) :
    Option (Bool × Worksheet) :=
  if ws.rows.isEmpty then none
  else
    match find_first_match ws.rows category with
    | some i => some (true, update_cell ws (i + 2) 3 amount)
    | none => some (false, ws)

/-- Embeds `GoogleSheetsManager.add_transaction` (main.py lines 133-146):
`worksheet.append_row([date, category, description, amount])`. -/
def add_transaction (ws : Worksheet) (date category description amount : String) :
    Worksheet :=
  { ws with rows := ws.rows ++ [[date, category, description, amount]] }

/-- Embeds `GoogleSheetsManager.get_categories` (main.py lines 148-156):
`df.iloc[:, 0].tolist()` on the budget DataFrame.  On a sheet with no data
rows the DataFrame has no columns and `df.iloc[:, 0]` raises `IndexError`,
modelled as `none`. -/
def get_categories (ws : Worksheet) : Option (List String) :=
  match read_budget_data ws with
  | [] => none
  | rows => some (rows.map first_cell)

/-- The transformation the claim about character stripping describes:
deleting every `'$'` and every `','` character of a string, wherever it
occurs. -/
def deleteCurrencyChars (s : String) : String :=
  String.mk (s.data.filter (fun c => c ≠ '$' ∧ c ≠ ','))

/- ------------------------------------------------------------------ -/
/- Helper lemmas                                                      -/
/- ------------------------------------------------------------------ -/

lemma filter_idem {α} (p : α → Bool) (l : List α) :
    (l.filter p).filter p = l.filter p := by
  induction l with
  | nil => rfl
  | cons a l ih =>
    by_cases h : p a <;> simp [List.filter_cons, h, ih]

lemma strip_deleteCurrencyChars (s : String) :
    strip (deleteCurrencyChars s) = strip s := by
  simp only [strip, deleteCurrencyChars]
  exact congrArg String.mk (filter_idem _ s.data)

lemma digitChar_isDigit (k : ℕ) (h : k < 10) : (digitChar k).isDigit := by
  interval_cases k <;> decide

lemma mem_natDigitsGo (fuel : ℕ) :
    ∀ (n : ℕ) (c : Char), c ∈ natDigitsGo n fuel → c.isDigit := by
  induction fuel with
  | zero => intro n c h; simp [natDigitsGo] at h
  | succ f ih =>
    intro n c h
    by_cases hn : n < 10
    · simp [natDigitsGo, hn] at h
      exact h ▸ digitChar_isDigit n hn
    · simp [natDigitsGo, hn] at h
      rcases h with h | h
      · exact h ▸ digitChar_isDigit _ (Nat.mod_lt n (by omega))
      · exact ih _ c h

lemma mem_natDigits (n : ℕ) (c : Char) (h : c ∈ natDigits n) : c.isDigit :=
  mem_natDigitsGo (n + 1) n c h

lemma mem_groupDigitsAux :
    ∀ (l : List Char) (c : Char), c ∈ groupDigitsAux l → c ∈ l ∨ c = ','
  | [], c, h => absurd h (by simp [groupDigitsAux])
  | [a], c, h => by
    simp [groupDigitsAux] at h
    simp [h]
  | [a, b], c, h => by
    simp [groupDigitsAux] at h
    rcases h with h | h <;> simp [h]
  | [a, b, d], c, h => by
    simp [groupDigitsAux] at h
    rcases h with h | h | h <;> simp [h]
  | a :: b :: d :: e :: rest, c, h => by
    simp only [groupDigitsAux, List.mem_cons] at h
    rcases h with h | h | h | h | h
    · simp [h]
    · simp [h]
    · simp [h]
    · exact Or.inr h
    · rcases mem_groupDigitsAux (e :: rest) c h with h2 | h2
      · left
        simp only [List.mem_cons] at h2 ⊢
        tauto
      · exact Or.inr h2

lemma mem_groupedDigits (n : ℕ) (c : Char) (h : c ∈ groupedDigits n) :
    c.isDigit ∨ c = ',' := by
  rw [groupedDigits, List.mem_reverse] at h
  rcases mem_groupDigitsAux _ _ h with h2 | h2
  · exact Or.inl (mem_natDigits n c h2)
  · exact Or.inr h2

lemma getD_set_ne {α} (l : List α) (i j : ℕ) (a d : α) (h : i ≠ j) :
    (l.set i a).getD j d = l.getD j d := by
  induction l generalizing i j with
  | nil => simp
  | cons x xs ih =>
    cases i with
    | zero =>
      cases j with
      | zero => omega
      | succ jj => simp
    | succ ii =>
      cases j with
      | zero => simp
      | succ jj =>
        simp only [List.set_cons_succ, List.getD_cons_succ]
        exact ih ii jj (by omega)

lemma getD_set_self {α} (l : List α) (i : ℕ) (a d : α) (h : i < l.length) :
    (l.set i a).getD i d = a := by
  induction l generalizing i with
  | nil => simp at h
  | cons x xs ih =>
    cases i with
    | zero => rfl
    | succ ii =>
      simp only [List.set_cons_succ, List.getD_cons_succ]
      exact ih ii (by simpa using h)

lemma find_first_match_none (rows : List (List String)) (cat : String)
    (h : ∀ r ∈ rows, first_cell r ≠ cat) :
    find_first_match rows cat = none := by
  induction rows with
  | nil => rfl
  | cons r rs ih =>
    simp only [find_first_match]
    rw [if_neg (h r (by simp)), ih (fun x hx => h x (by simp [hx]))]
    rfl

lemma find_first_match_first (rows : List (List String)) (cat : String) :
    ∀ i, i < rows.length → first_cell (rows.getD i []) = cat →
      (∀ j, j < i → first_cell (rows.getD j []) ≠ cat) →
      find_first_match rows cat = some i := by
  induction rows with
  | nil => intro i hi; simp at hi
  | cons r rs ih =>
    intro i hi hmatch hbefore
    cases i with
    | zero =>
      simp only [List.getD_cons_zero] at hmatch
      simp [find_first_match, hmatch]
    | succ n =>
      have hr : first_cell r ≠ cat := by simpa using hbefore 0 (Nat.succ_pos n)
      simp only [find_first_match]
      rw [if_neg hr,
        ih n (by simpa using hi) (by simpa using hmatch)
          (fun j hj => by simpa using hbefore (j + 1) (by omega))]
      rfl

/- ------------------------------------------------------------------ -/
/- Claim theorems                                                     -/
/- ------------------------------------------------------------------ -/

/-- C2: when either input of `calculate_available`, after stripping the
currency characters, is not parsable as a number, the result is `0.0` (the
exception is caught, nothing propagates); in particular
`calculate_available "abc" "100" = 0.0`. -/
theorem calculate_available_unparsable :
    (∀ b s : String,
      parse_float (strip b) = none ∨ parse_float (strip s) = none →
      calculate_available b s = 0) ∧
    calculate_available "abc" "100" = 0 := by
  constructor
  · intro b s h
    unfold calculate_available
    rcases h with h | h
    · rw [h]
    · rw [h]
      cases parse_float (strip b) <;> rfl
  · rfl

/-- Witness for C2 at the claim's own example: `"abc"` does not parse, and
the result is `0`. -/
theorem calculate_available_unparsable_witness :
    (parse_float (strip "abc") = none ∨ parse_float (strip "100") = none) ∧
    calculate_available "abc" "100" = 0 :=
  ⟨Or.inl rfl, calculate_available_unparsable.1 "abc" "100" (Or.inl rfl)⟩

/-- C3: when both inputs of `calculate_available` parse after stripping,
the result is budget minus spent; in particular
`calculate_available "$1,200.00" "$450.50" = 749.50`. -/
theorem calculate_available_difference :
    (∀ (b s : String) (qb qs : ℚ),
      parse_float (strip b) = some qb → parse_float (strip s) = some qs →
      calculate_available b s = qb - qs) ∧
    calculate_available "$1,200.00" "$450.50" = 749.50 := by
  constructor
  · intro b s qb qs hb hs
    unfold calculate_available
    rw [hb, hs]
  · have h1 : parse_float (strip "$1,200.00") = some (mkRat 1200 1) := rfl
    have h2 : parse_float (strip "$450.50") = some (mkRat 901 2) := rfl
    unfold calculate_available
    rw [h1, h2]
    show mkRat 1200 1 - mkRat 901 2 = (749.50 : ℚ)
    rw [Rat.mkRat_eq_div, Rat.mkRat_eq_div]
    norm_num

/-- Witness for C3 at the claim's own example: both inputs parse and the
difference is `749.50`. -/
theorem calculate_available_difference_witness :
    calculate_available "$1,200.00" "$450.50" = mkRat 1200 1 - mkRat 901 2 :=
  calculate_available_difference.1 "$1,200.00" "$450.50"
    (mkRat 1200 1) (mkRat 901 2) rfl rfl

/-- C8: `calculate_available` deletes every `'$'` and `','` character of
each input, wherever it appears, so it cannot distinguish an input from the
same input with those characters already deleted; `"1,2$3"` is treated as
`"123"`, and a character such as `'€'` is not stripped, so it makes the
input unparsable and the result `0`. -/
theorem calculate_available_strip_anywhere :
    (∀ b s : String,
      calculate_available b s =
        calculate_available (deleteCurrencyChars b) (deleteCurrencyChars s)) ∧
    calculate_available "1,2$3" "100" = calculate_available "123" "100" ∧
    calculate_available "€100" "50" = 0 := by
  refine ⟨fun b s => ?_, rfl, rfl⟩
  unfold calculate_available
  rw [strip_deleteCurrencyChars, strip_deleteCurrencyChars]

/-- C4: `format_currency` renders every amount as `"$"`, then a body of
digits, thousands-separating commas and possibly a leading minus sign, then
a dot and exactly two decimal digit characters; in particular
`format_currency 1234.5 = "$1,234.50"`. -/
theorem format_currency_shape :
    (∀ q : ℚ, ∃ (body : String) (d1 d2 : Char),
      format_currency q = "$" ++ body ++ "." ++ String.mk [d1, d2] ∧
      d1.isDigit ∧ d2.isDigit ∧
      ∀ c ∈ body.data, c.isDigit ∨ c = ',' ∨ c = '-') ∧
    format_currency (1234.5 : ℚ) = "$1,234.50" := by
  constructor
  · intro q
    refine ⟨(if q < 0 then "-" else "") ++
        String.mk (groupedDigits ((roundHalfEvenCents q).natAbs / 100)),
      digitChar ((roundHalfEvenCents q).natAbs % 100 / 10),
      digitChar ((roundHalfEvenCents q).natAbs % 100 % 10),
      rfl, digitChar_isDigit _ (by omega), digitChar_isDigit _ (by omega), ?_⟩
    intro c hc
    rw [String.data_append] at hc
    rcases List.mem_append.mp hc with h | h
    · right; right
      by_cases hq : q < 0
      · simp [hq] at h
        exact h
      · simp [hq] at h
    · rcases mem_groupedDigits _ c h with h2 | h2
      · exact Or.inl h2
      · exact Or.inr (Or.inl h2)
  · have h : (1234.5 : ℚ) = mkRat 2469 2 := by
      rw [Rat.mkRat_eq_div]; norm_num
    rw [h]
    rfl

/-- Witness for C4: the shape, instantiated at the amount `1`. -/
theorem format_currency_shape_witness :
    ∃ (body : String) (d1 d2 : Char),
      format_currency (mkRat 1 1) = "$" ++ body ++ "." ++ String.mk [d1, d2] ∧
      d1.isDigit ∧ d2.isDigit ∧
      ∀ c ∈ body.data, c.isDigit ∨ c = ',' ∨ c = '-' :=
  format_currency_shape.1 (mkRat 1 1)

/-- C9: on a negative amount `format_currency` puts the minus sign after
the dollar sign, `"$-"`, never before it; in particular
`format_currency (-1234.5) = "$-1,234.50"`. -/
theorem format_currency_negative_sign :
    (∀ q : ℚ, q < 0 → ∃ rest : String,
      format_currency q = "$" ++ "-" ++ rest) ∧
    format_currency (-1234.5 : ℚ) = "$-1,234.50" := by
  constructor
  · intro q hq
    refine ⟨String.mk (groupedDigits ((roundHalfEvenCents q).natAbs / 100)) ++
      "." ++ String.mk [digitChar ((roundHalfEvenCents q).natAbs % 100 / 10),
        digitChar ((roundHalfEvenCents q).natAbs % 100 % 10)], ?_⟩
    apply String.ext
    simp [format_currency, hq]
  · have h : (-1234.5 : ℚ) = mkRat (-2469) 2 := by
      rw [Rat.mkRat_eq_div]; norm_num
    rw [h]
    rfl

/-- Witness for C9 at the amount `-1234.5` (as a reduced rational):
  the formatted string carries the sign right after the dollar sign. -/
theorem format_currency_negative_sign_witness :
    ∃ rest : String, format_currency (mkRat (-2469) 2) = "$" ++ "-" ++ rest :=
  format_currency_negative_sign.1 (mkRat (-2469) 2)
    (by rw [Rat.mkRat_eq_div]; norm_num)

/-- C7: the favorability of `get_status_indicator` is monotone
non-decreasing in the available balance, and `available > 1000` yields the
most positive indicator — its favorability is maximal over all balances. -/
theorem get_status_indicator_monotone :
    (∀ a b : ℚ, a ≤ b →
      favorability (get_status_indicator a) ≤
        favorability (get_status_indicator b)) ∧
    (∀ a : ℚ, 1000 < a →
      get_status_indicator a = "🟢 Excelente" ∧
      ∀ x : ℚ, favorability (get_status_indicator x) ≤
        favorability (get_status_indicator a)) := by
  constructor
  · intro a b hab
    unfold get_status_indicator
    split_ifs <;> first | decide | linarith
  · intro a ha
    have hg : get_status_indicator a = "🟢 Excelente" := by
      unfold get_status_indicator
      rw [if_pos ha]
    refine ⟨hg, fun x => ?_⟩
    rw [hg]
    unfold get_status_indicator
    split_ifs <;> decide

/-- Witness for C7 at `a = 0 ≤ 1 = b` and at `a = 1001 > 1000`. -/
theorem get_status_indicator_monotone_witness :
    favorability (get_status_indicator 0) ≤
      favorability (get_status_indicator 1) ∧
    (get_status_indicator 1001 = "🟢 Excelente" ∧
      ∀ x : ℚ, favorability (get_status_indicator x) ≤
        favorability (get_status_indicator 1001)) :=
  ⟨get_status_indicator_monotone.1 0 1 (by norm_num),
   get_status_indicator_monotone.2 1001 (by norm_num)⟩

/-- C5: `add_transaction` appends exactly the one row
`[date, category, description, amount]` at the end of the transactions
sheet; the header and every pre-existing row, content and position, are
untouched. -/
theorem add_transaction_appends :
    ∀ (ws : Worksheet) (date category description amount : String),
      (add_transaction ws date category description amount).header =
        ws.header ∧
      (add_transaction ws date category description amount).rows =
        ws.rows ++ [[date, category, description, amount]] ∧
      (add_transaction ws date category description amount).rows.length =
        ws.rows.length + 1 ∧
      (add_transaction ws date category description amount).rows.take
        ws.rows.length = ws.rows := by
  intro ws date category description amount
  refine ⟨rfl, rfl, by simp [add_transaction], ?_⟩
  show (ws.rows ++ [[date, category, description, amount]]).take
    ws.rows.length = ws.rows
  simp

/-- C1 fails as stated on a budget sheet with no data rows: there no row
matches, yet `update_expense` raises (an `IndexError` from `df.columns[0]`,
modelled as `none`) instead of returning `False`. -/
theorem update_expense_empty_counterexample :
    update_expense ⟨["Categoría", "Presupuesto", "Gasto"], []⟩
      "Comida" "50" = none := rfl

/-- C1 (amended with at least one data row): with no matching category
`update_expense` returns `False` and the sheet is untouched; with a first
matching row at index `i` it returns `True` and overwrites exactly the
third cell of that row — header, every other row, and every other cell of
row `i` keep their values. -/
theorem update_expense_first_match (ws : Worksheet) (cat amt : String)
    (hne : ws.rows ≠ []) :
    ((∀ r ∈ ws.rows, first_cell r ≠ cat) →
      update_expense ws cat amt = some (false, ws)) ∧
    (∀ i, i < ws.rows.length → first_cell (ws.rows.getD i []) = cat →
      (∀ j, j < i → first_cell (ws.rows.getD j []) ≠ cat) →
      ∃ ws' : Worksheet,
        update_expense ws cat amt = some (true, ws') ∧
        ws'.header = ws.header ∧
        ws'.rows.length = ws.rows.length ∧
        (∀ j, j ≠ i → ws'.rows.getD j [] = ws.rows.getD j []) ∧
        (ws'.rows.getD i []).length = (ws.rows.getD i []).length ∧
        (∀ k, k ≠ 2 → (ws'.rows.getD i []).getD k "" =
          (ws.rows.getD i []).getD k "") ∧
        (2 < (ws.rows.getD i []).length →
          (ws'.rows.getD i []).getD 2 "" = amt)) := by
  have hemp : ws.rows.isEmpty = false := by
    rcases h : ws.rows with _ | ⟨r, rs⟩
    · exact absurd h hne
    · rfl
  constructor
  · intro h
    unfold update_expense
    rw [if_neg (by simp [hemp]), find_first_match_none ws.rows cat h]
  · intro i hi hmatch hbefore
    refine ⟨⟨ws.header, ws.rows.set i ((ws.rows.getD i []).set 2 amt)⟩,
      ?_, rfl, by simp, ?_, ?_, ?_, ?_⟩
    · unfold update_expense
      rw [if_neg (by simp [hemp]),
        find_first_match_first ws.rows cat i hi hmatch hbefore]
      show some (true, update_cell ws (i + 2) 3 amt) = _
      unfold update_cell
      rw [if_neg (by omega)]
      simp
    · intro j hj
      exact getD_set_ne _ _ _ _ _ (fun h => hj h.symm)
    · rw [getD_set_self _ _ _ _ hi]
      simp
    · intro k hk
      rw [getD_set_self _ _ _ _ hi]
      exact getD_set_ne _ _ _ _ _ (fun h => hk h.symm)
    · intro h2
      rw [getD_set_self _ _ _ _ hi]
      exact getD_set_self _ _ _ _ h2

/-- Witness for C1 on a two-row budget sheet: a nonexistent category gives
`False` with the sheet unchanged, and category `"Ocio"` (first match at
index 1) gives `True` together with all the frame facts. -/
theorem update_expense_first_match_witness :
    update_expense ⟨["Categoría", "Presupuesto", "Gasto"],
        [["Comida", "500", "100"], ["Ocio", "200", "50"]]⟩
      "Inexistente" "75" =
      some (false, ⟨["Categoría", "Presupuesto", "Gasto"],
        [["Comida", "500", "100"], ["Ocio", "200", "50"]]⟩) ∧
    (∃ ws' : Worksheet,
      update_expense ⟨["Categoría", "Presupuesto", "Gasto"],
          [["Comida", "500", "100"], ["Ocio", "200", "50"]]⟩
        "Ocio" "75" = some (true, ws') ∧
      ws'.header = ["Categoría", "Presupuesto", "Gasto"] ∧
      ws'.rows.length = 2 ∧
      (∀ j, j ≠ 1 → ws'.rows.getD j [] =
        [["Comida", "500", "100"], ["Ocio", "200", "50"]].getD j []) ∧
      (ws'.rows.getD 1 []).length = 3 ∧
      (∀ k, k ≠ 2 → (ws'.rows.getD 1 []).getD k "" =
        (["Ocio", "200", "50"] : List String).getD k "") ∧
      (ws'.rows.getD 1 []).getD 2 "" = "75") := by
  constructor
  · exact (update_expense_first_match _ "Inexistente" "75" (by decide)).1
      (by decide)
  · obtain ⟨ws', h1, h2, h3, h4, h5, h6, h7⟩ :=
      (update_expense_first_match
        ⟨["Categoría", "Presupuesto", "Gasto"],
          [["Comida", "500", "100"], ["Ocio", "200", "50"]]⟩
        "Ocio" "75" (by decide)).2 1 (by decide) (by decide)
        (fun j hj => by
          have h0 : j = 0 := by omega
          subst h0
          decide)
    exact ⟨ws', h1, h2, h3, h4, h5, h6, h7 (by decide)⟩

/-- C6 fails as stated on a budget sheet with no data rows: the category
projection of the empty record list is the empty sequence, yet
`get_categories` raises (an `IndexError` from `df.iloc[:, 0]`, modelled as
`none`) instead of returning it. -/
theorem get_categories_empty_counterexample :
    get_categories ⟨["Categoría", "Presupuesto", "Gasto"], []⟩ = none ∧
    (read_budget_data ⟨["Categoría", "Presupuesto", "Gasto"], []⟩).map
      first_cell = [] :=
  ⟨rfl, rfl⟩

/-- C6 (amended with at least one data row): `get_categories` returns
exactly the first-column values of the rows of `read_budget_data`, in
order. -/
theorem get_categories_projection (ws : Worksheet)
    (hne : read_budget_data ws ≠ []) :
    get_categories ws = some ((read_budget_data ws).map first_cell) := by
  unfold get_categories
  rcases h : read_budget_data ws with _ | ⟨r, rs⟩
  · exact absurd h hne
  · rfl

/-- Witness for C6 on a one-row budget sheet. -/
theorem get_categories_projection_witness :
    get_categories ⟨["Categoría", "Presupuesto", "Gasto"],
        [["Comida", "500", "100"]]⟩ =
      some ((read_budget_data ⟨["Categoría", "Presupuesto", "Gasto"],
        [["Comida", "500", "100"]]⟩).map first_cell) :=
  get_categories_projection _ (by decide)

/-- C10: with at least one data row `update_expense` always returns a
boolean outcome (no exception); with no data rows the first-column access
raises — `update_expense` and `get_categories` both fail (modelled as
`none`) rather than return `False` or an empty result. -/
theorem sheet_ops_require_data_row (ws : Worksheet) (cat amt : String) :
    (ws.rows ≠ [] → ∃ (b : Bool) (ws' : Worksheet),
      update_expense ws cat amt = some (b, ws')) ∧
    (ws.rows = [] →
      update_expense ws cat amt = none ∧ get_categories ws = none) := by
  constructor
  · intro hne
    have hemp : ws.rows.isEmpty = false := by
      rcases h : ws.rows with _ | ⟨r, rs⟩
      · exact absurd h hne
      · rfl
    unfold update_expense
    rcases hf : find_first_match ws.rows cat with _ | i
    · exact ⟨false, ws, by rw [if_neg (by simp [hemp])]⟩
    · exact ⟨true, update_cell ws (i + 2) 3 amt,
        by rw [if_neg (by simp [hemp])]⟩
  · intro h
    refine ⟨?_, ?_⟩
    · unfold update_expense
      rw [if_pos (by simp [h])]
    · unfold get_categories read_budget_data
      rw [h]

/-- Witness for C10: a one-row sheet gives a boolean outcome, the empty
sheet gives the two failures. -/
theorem sheet_ops_require_data_row_witness :
    (∃ (b : Bool) (ws' : Worksheet),
      update_expense ⟨["Categoría", "Presupuesto", "Gasto"],
        [["Comida", "500", "100"]]⟩ "Comida" "9" = some (b, ws')) ∧
    (update_expense ⟨["Categoría", "Presupuesto", "Gasto"], []⟩
        "Comida" "9" = none ∧
      get_categories ⟨["Categoría", "Presupuesto", "Gasto"], []⟩ = none) :=
  ⟨(sheet_ops_require_data_row _ "Comida" "9").1 (by decide),
   (sheet_ops_require_data_row
      ⟨["Categoría", "Presupuesto", "Gasto"], []⟩ "Comida" "9").2 rfl⟩

end Finanzas
